import Mathlib

/-!
Shallow embedding of `src/RP_app.py` (Roller Press Mining Project Research app).

Strings manipulated character-by-character (the name parser) are embedded as
`List Char`; opaque strings (queries, messages, dictionary keys) as `String`.
Python `str.strip()` / `str.split()` whitespace is embedded as the ASCII
whitespace characters; `str.lower()` as ASCII lowering (all keywords in the
source are ASCII).

Python dictionaries holding the per-step search outcome are embedded as the
structure `SearchDict` whose three `Option` fields record presence or absence
of the keys `error` / `results` / `query` (the only keys the code reads).
The Streamlit session state (`research_data`, `completed_steps`) is embedded
as `PipelineState`: the step records keyed by the step key string, the
extracted notes, and the identity entries (`company_name` / `project_name`)
are carried as separate fields of the structure; `completed_steps` (a Python
set of step indices) is a `Finset Nat`.

The network and the secret store are an explicit environment `Env`: the two
optional credentials and, for each provider, the behaviour of the HTTP call
for a given query (a parsed response with a status code, or a raised
exception, which covers transport errors and timeouts).
-/

namespace RP

/-- Python whitespace (ASCII part), as used by `str.strip()` and `str.split()`. -/
def isPyWs (c : Char) : Bool :=
  c == ' ' || c == '\t' || c == '\n' || c == '\r' || c == '\x0b' || c == '\x0c'

/-- Python `s.strip()`. -/
def pyStrip (l : List Char) : List Char :=
  ((l.dropWhile isPyWs).reverse.dropWhile isPyWs).reverse

/-- Helper for `pyWords`: accumulates the current word (reversed). -/
def pyWordsAux : List Char → List Char → List (List Char)
  | [], acc => if acc.isEmpty then [] else [acc.reverse]
  | c :: cs, acc =>
    if isPyWs c then
      if acc.isEmpty then pyWordsAux cs [] else acc.reverse :: pyWordsAux cs []
    else pyWordsAux cs (c :: acc)

/-- Python `s.split()`: split on runs of whitespace, no empty tokens. -/
def pyWords (l : List Char) : List (List Char) := pyWordsAux l []

/-- Whether the first list begins the second (character-wise). -/
def leadsWith : List Char → List Char → Bool
  | [], _ => true
  | _ :: _, [] => false
  | p :: ps, c :: cs => p == c && leadsWith ps cs

/-- Split `l` at the first occurrence of `sep` (the separator removed),
embedding Python `l.split(sep, 1)` for the case where `sep` occurs in `l`. -/
def splitFirst (sep : List Char) : List Char → Option (List Char × List Char)
  | [] => none
  | c :: cs =>
    if leadsWith sep (c :: cs) then some ([], (c :: cs).drop sep.length)
    else
      match splitFirst sep cs with
      | some ab => some (c :: ab.1, ab.2)
      | none => none

/-- Python `needle in hay` for a nonempty needle. -/
def hasSub (needle hay : List Char) : Bool := (splitFirst needle hay).isSome

/-- Python `s.lower()` (ASCII). -/
def toLowerW (l : List Char) : List Char := l.map Char.toLower

/-- Python `' '.join(ws)`. -/
def joinSp : List (List Char) → List Char
  | [] => []
  | [w] => w
  | w :: ws => w ++ (' ' :: joinSp ws)

/-- The ordered separator list of `parse_project_input` (RP_app.py line 184). -/
def separators : List (List Char) :=
  [(" - ").data, (" – ").data, (" — ").data, (" | ").data, (" / ").data, (" \\ ").data]

/-- `project_keywords` (RP_app.py line 196). -/
def project_keywords : List (List Char) :=
  [("project").data, ("mine").data, ("deposit").data, ("prospect").data,
   ("operation").data, ("hill").data, ("pit").data, ("field").data]

/-- `potential_project_words` (RP_app.py line 210). -/
def potential_project_words : List (List Char) :=
  [("hill").data, ("creek").data, ("mine").data, ("pit").data,
   ("deposit").data, ("prospect").data]

/-- The separator loop (RP_app.py lines 186-190): first separator token found
anywhere in the input wins; split at its first occurrence, strip both parts.
(The source's `len(parts) == 2` test is always true when the separator occurs,
since `split(sep, 1)` then yields exactly two parts.) -/
def findSep : List (List Char) → List Char → Option (List Char × List Char)
  | [], _ => none
  | sep :: rest, s =>
    match splitFirst sep s with
    | some ab => some (pyStrip ab.1, pyStrip ab.2)
    | none => findSep rest s

/-- The keyword scan (RP_app.py lines 198-204): first index `i > 0` whose word,
lowercased, is exactly a member of `project_keywords`, with both resulting
parts nonempty, splits the word list there. `pre` is the already-scanned
prefix (`words[:i]`). -/
def kwScanAux : List (List Char) → List (List Char) → Option (List Char × List Char)
  | _, [] => none
  | pre, w :: rest =>
    if toLowerW w ∈ project_keywords ∧ pre ≠ [] then
      (let company := pyStrip (joinSp pre)
       let project := pyStrip (joinSp (w :: rest))
       if company ≠ [] ∧ project ≠ [] then some (company, project)
       else kwScanAux (pre ++ [w]) rest)
    else kwScanAux (pre ++ [w]) rest

/-- The keyword scan started at index 0. -/
def kwScan (ws : List (List Char)) : Option (List Char × List Char) := kwScanAux [] ws

/-- Python `any(keyword in s for keyword in potential_project_words)`:
substring containment, not membership (RP_app.py lines 213 and 221). -/
def anyKwIn (s : List Char) : Bool := potential_project_words.any (fun k => hasSub k s)

/-- The trailing-word heuristic (RP_app.py lines 208-224): split off the last
word when its lowering contains one of `potential_project_words` as a
substring; otherwise, with at least three words, split off the last two words
when the lowering of their space-join contains one as a substring. -/
def trailingSplit (ws : List (List Char)) : Option (List Char × List Char) :=
  match ws.getLast? with
  | none => none
  | some lw =>
    if 2 ≤ ws.length then
      if anyKwIn (toLowerW lw) then some (pyStrip (joinSp ws.dropLast), pyStrip lw)
      else if 3 ≤ ws.length then
        (if anyKwIn (toLowerW (joinSp (ws.drop (ws.length - 2)))) then
          some (pyStrip (joinSp (ws.take (ws.length - 2))),
                pyStrip (joinSp (ws.drop (ws.length - 2))))
         else none)
      else none
    else none

/-- `parse_project_input` (RP_app.py lines 181-233). -/
def parse_project_input (input : List Char) : List Char × List Char :=
  match findSep separators input with
  | some cp => cp
  | none =>
    let words := pyWords input
    if 2 ≤ words.length then
      match kwScan words with
      | some cp => cp
      | none =>
        match trailingSplit words with
        | some cp => cp
        | none =>
          (pyStrip (joinSp (words.take (words.length / 2))),
           pyStrip (joinSp (words.drop (words.length / 2))))
    else (pyStrip input, pyStrip input)

/-- Normalized search hit, from the dicts built at RP_app.py lines 101-105 / 146-150. -/
structure SearchResult where
  title : String
  link : String
  snippet : String
  deriving DecidableEq

/-- The relevant keys of the dicts returned by the search functions: a field
is `none` when the corresponding key is absent from the Python dict. -/
structure SearchDict where
  error : Option String
  results : Option (List SearchResult)
  query : Option String
  deriving DecidableEq

/-- One entry of `data["organic_results"]`; each field is `none` when the key
is absent (the code reads them with `.get(k, "")`). -/
structure SerpEntry where
  title : Option String
  link : Option String
  snippet : Option String
  deriving DecidableEq

/-- The parsed SerpAPI response body as far as the code reads it. -/
structure SerpData where
  organic_results : Option (List SerpEntry)
  deriving DecidableEq

/-- One entry of `data["webPages"]["value"]`. -/
structure BingEntry where
  name : Option String
  url : Option String
  snippet : Option String
  deriving DecidableEq

/-- The `webPages` object of a Bing response. -/
structure BingPages where
  value : Option (List BingEntry)
  deriving DecidableEq

/-- The parsed Bing response body as far as the code reads it. -/
structure BingData where
  webPages : Option BingPages
  deriving DecidableEq

/-- Outcome of one HTTP GET: a response with a status code and parsed body, or
a raised exception (transport error, timeout, JSON error) carrying `str(e)`. -/
inductive HttpResult (α : Type) where
  | success (status : Nat) (body : α)
  | exc (msg : String)
  deriving DecidableEq

/-- The ambient environment of the search functions: the two optional secrets
and the behaviour of each provider's HTTP call per query string. -/
structure Env where
  serp_api_key : Option String
  bing_api_key : Option String
  serpHttp : String → HttpResult SerpData
  bingHttp : String → HttpResult BingData

/-- Mapping of one organic entry to the normalized dict (RP_app.py lines 101-105). -/
def serpEntryToResult (e : SerpEntry) : SearchResult :=
  ⟨e.title.getD "", e.link.getD "", e.snippet.getD ""⟩

/-- Mapping of one web-page entry to the normalized dict (RP_app.py lines 146-150). -/
def bingEntryToResult (e : BingEntry) : SearchResult :=
  ⟨e.name.getD "", e.url.getD "", e.snippet.getD ""⟩

/-- `search_web_serp` (RP_app.py lines 72-112). Error dicts carry only the
`error` key; the success dict carries `results` and `query`. -/
def search_web_serp (env : Env) (query : String) : SearchDict :=
  match env.serp_api_key with
  | none => ⟨some "SERP API key not found in secrets", none, none⟩
  | some _ =>
    match env.serpHttp query with
    | HttpResult.exc msg => ⟨some ("Search error: " ++ msg), none, none⟩
    | HttpResult.success status data =>
      if status = 200 then
        ⟨none,
         some ((match data.organic_results with
                | some rs => rs.take 5
                | none => []).map serpEntryToResult),
         some query⟩
      else ⟨some ("API request failed with status " ++ toString status), none, none⟩

/-- `search_web_bing` (RP_app.py lines 114-157). -/
def search_web_bing (env : Env) (query : String) : SearchDict :=
  match env.bing_api_key with
  | none => ⟨some "Bing API key not found in secrets", none, none⟩
  | some _ =>
    match env.bingHttp query with
    | HttpResult.exc msg => ⟨some ("Search error: " ++ msg), none, none⟩
    | HttpResult.success status data =>
      if status = 200 then
        ⟨none,
         some ((match data.webPages with
                | some wp =>
                  (match wp.value with
                   | some rs => rs.take 5
                   | none => [])
                | none => []).map bingEntryToResult),
         some query⟩
      else ⟨some ("API request failed with status " ++ toString status), none, none⟩

/-- `search_web_info` (RP_app.py lines 159-179): SerpAPI first, then Bing,
keyed on the absence of the `error` key; otherwise the aggregated error dict
that also carries the original query. (The `st.info` call is UI-only.) -/
def search_web_info (env : Env) (query : String) : SearchDict :=
  let r1 := search_web_serp env query
  if r1.error = none then r1
  else
    let r2 := search_web_bing env query
    if r2.error = none then r2
    else
      ⟨some "No working search API found. Please configure SERP_API_KEY or BING_API_KEY in Streamlit secrets.",
       none, some query⟩

/-- The per-step dict (RP_app.py lines 240-245 etc.): query used, search
outcome, the fixed placeholder text, and the step display name. -/
structure StepRecord where
  query : String
  results : SearchDict
  info : String
  step : String
  deriving DecidableEq

/-- `get_location_info` (RP_app.py lines 235-245). -/
def get_location_info (env : Env) (company_name project_name : String) : StepRecord :=
  let query := "\"" ++ company_name ++ "\" \"" ++ project_name ++
    "\" location \"Western Australia\" OR \"WA\" OR \"Queensland\" OR \"NSW\" state"
  ⟨query, search_web_info env query,
   "Location to be extracted from search results", "Project Location"⟩

/-- `get_coordinates` (RP_app.py lines 247-257). -/
def get_coordinates (env : Env) (company_name project_name : String) : StepRecord :=
  let query := "\"" ++ company_name ++ "\" \"" ++ project_name ++
    "\" coordinates latitude longitude GPS mining location"
  ⟨query, search_web_info env query,
   "Coordinates to be extracted from search results", "Geographic Coordinates"⟩

/-- `get_commodity_info` (RP_app.py lines 259-269). -/
def get_commodity_info (env : Env) (company_name project_name : String) : StepRecord :=
  let query := "\"" ++ company_name ++ "\" \"" ++ project_name ++
    "\" gold copper iron ore lithium mineral commodity type"
  ⟨query, search_web_info env query,
   "Commodity to be extracted from search results", "Commodity Information"⟩

/-- `get_drilling_status` (RP_app.py lines 271-281). -/
def get_drilling_status (env : Env) (company_name project_name : String) : StepRecord :=
  let query := "\"" ++ company_name ++ "\" \"" ++ project_name ++
    "\" diamond drilling completed reverse circulation RC drilling program"
  ⟨query, search_web_info env query,
   "Drilling status to be extracted from search results", "Diamond Drilling Status"⟩

/-- `get_project_stage` (RP_app.py lines 283-293). -/
def get_project_stage (env : Env) (company_name project_name : String) : StepRecord :=
  let query := "\"" ++ company_name ++ "\" \"" ++ project_name ++
    "\" exploration scoping study PFS DFS feasibility development stage"
  ⟨query, search_web_info env query,
   "Project stage to be extracted from search results", "Project Development Stage"⟩

/-- `get_resource_data` (RP_app.py lines 295-305). -/
def get_resource_data (env : Env) (company_name project_name : String) : StepRecord :=
  let query := "\"" ++ company_name ++ "\" \"" ++ project_name ++
    "\" resource estimate tonnage grade ounces Mt Moz JORC mineral resource"
  ⟨query, search_web_info env query,
   "Resource data to be extracted from search results (e.g., 118.7Mt @ 0.53g/t Au for 2 Moz)",
   "Resource Size and Grade"⟩

/-- `get_ore_competency` (RP_app.py lines 307-317). -/
def get_ore_competency (env : Env) (company_name project_name : String) : StepRecord :=
  let query := "\"" ++ company_name ++ "\" \"" ++ project_name ++
    "\" ore competency UCS BWI \"bond work index\" hardness strength crushing"
  ⟨query, search_web_info env query,
   "Ore competency data to be extracted from search results", "Ore Competency"⟩

/-- `get_process_flowsheet` (RP_app.py lines 319-329). -/
def get_process_flowsheet (env : Env) (company_name project_name : String) : StepRecord :=
  let query := "\"" ++ company_name ++ "\" \"" ++ project_name ++
    "\" process flowsheet HPGR \"high pressure grinding\" comminution processing"
  ⟨query, search_web_info env query,
   "Process information to be extracted from search results", "Process Flowsheet & HPGR"⟩

/-- The `research_steps` table (RP_app.py lines 444-493): step key paired with
the step function, in display order; the step index `i` is the list position. -/
def stepFns : List (String × (Env → String → String → StepRecord)) :=
  [("location", get_location_info),
   ("coordinates", get_coordinates),
   ("commodity", get_commodity_info),
   ("drilling", get_drilling_status),
   ("stage", get_project_stage),
   ("resources", get_resource_data),
   ("competency", get_ore_competency),
   ("process", get_process_flowsheet)]

/-- The step key of index `i`, when `i` is in range. -/
def stepKey? (i : Nat) : Option String := (stepFns.get? i).map Prod.fst

/-- Python dict assignment `d[k] = v`: overwrite in place if the key exists,
otherwise append. -/
def dictInsert : List (String × StepRecord) → String → StepRecord → List (String × StepRecord)
  | [], k, v => [(k, v)]
  | (k1, v1) :: rest, k, v =>
    if k1 = k then (k, v) :: rest else (k1, v1) :: dictInsert rest k v

/-- Python dict lookup `d.get(k)`. -/
def dictGet? : List (String × StepRecord) → String → Option StepRecord
  | [], _ => none
  | (k1, v1) :: rest, k => if k1 = k then some v1 else dictGet? rest k

/-- Number of stored entries under key `k`. -/
def countKey (d : List (String × StepRecord)) (k : String) : Nat :=
  (d.filter (fun e => e.1 == k)).length

/-- The session state of the pipeline: the identity entries
(`research_data['company_name'/'project_name']`, RP_app.py lines 412-413), the
step records keyed by step key, the extracted notes, and `completed_steps`. -/
structure PipelineState where
  company : String
  project : String
  records : List (String × StepRecord)
  notes : List (String × String)
  completed : Finset Nat

/-- `initialize_session_state` (RP_app.py lines 63-70): empty store, empty
completed set (identity entries not yet present). -/
def initState : PipelineState := ⟨"", "", [], [], ∅⟩

/-- The step-button handler (RP_app.py lines 503-508): run the step function,
store the record under the step key, add the step index to `completed_steps`.
Out-of-range indices have no button and leave the state unchanged. -/
def runStep (env : Env) (s : PipelineState) (i : Nat) : PipelineState :=
  match stepFns.get? i with
  | some kf =>
    ⟨s.company, s.project,
     dictInsert s.records kf.1 (kf.2 env s.company s.project),
     s.notes, insert i s.completed⟩
  | none => s

/-- Wiping the session store, as the clear button does (RP_app.py lines
620-623): `research_data = {}` (which also removes the identity entries and
the notes) and `completed_steps = set()`. -/
def clearAll (_s : PipelineState) : PipelineState := ⟨"", "", [], [], ∅⟩

/-- The re-store of the identity on the rerun of `main` (RP_app.py lines
412-413), with the company/project values coming from the persistent input
widgets, which the clear button does not touch. -/
def rerunStore (company_name project_name : String) (s : PipelineState) : PipelineState :=
  ⟨company_name, project_name, s.records, s.notes, s.completed⟩

/-- The observable effect of the clear button followed by the forced rerun of
`main`: wipe the store, then re-store the identity from the widgets. -/
def clearButton (company_name project_name : String) (s : PipelineState) : PipelineState :=
  rerunStore company_name project_name (clearAll s)

/-- Step `i` has a stored record in `s`. -/
def storedB (s : PipelineState) (i : Nat) : Bool :=
  match stepKey? i with
  | some k => (dictGet? s.records k).isSome
  | none => false

/-- The completed-on-attempt invariant: `completed` holds only valid step
indices, and holds a valid index exactly when that step has a stored record. -/
def Inv (s : PipelineState) : Prop :=
  (∀ j ∈ s.completed, j < 8) ∧ (∀ j < 8, (j ∈ s.completed ↔ storedB s j = true))

instance (s : PipelineState) : Decidable (Inv s) := by
  unfold Inv; infer_instance

/-- A concrete environment with no configured credential and an unreachable
network. -/
def env0 : Env :=
  ⟨none, none, fun _ => HttpResult.exc "offline", fun _ => HttpResult.exc "offline"⟩

/-- A concrete environment where SerpAPI is configured and answers HTTP 200
with a body lacking the `organic_results` key, and Bing would fail. -/
def envSerpEmpty : Env :=
  ⟨some "key", none, fun _ => HttpResult.success 200 ⟨none⟩,
   fun _ => HttpResult.exc "offline"⟩

/-- A concrete session state that has run step 0. -/
def sampleState : PipelineState :=
  ⟨"BHP", "Olympic Dam",
   [("location", get_location_info env0 "BHP" "Olympic Dam")], [], insert 0 ∅⟩

/- ### Helper lemmas -/

/-- A list begins with itself followed by anything. -/
theorem leadsWith_self_append (p r : List Char) : leadsWith p (p ++ r) = true := by
  induction p with
  | nil => simp [leadsWith]
  | cons c cs ih => simp [leadsWith, ih]

/-- If `leadsWith p l` then `l` is `p` followed by its remainder. -/
theorem eq_append_of_leadsWith :
    ∀ (p l : List Char), leadsWith p l = true → l = p ++ l.drop p.length := by
  intro p
  induction p with
  | nil => intro l _; simp
  | cons c cs ih =>
    intro l h
    cases l with
    | nil => simp [leadsWith] at h
    | cons d ds =>
      simp only [leadsWith, Bool.and_eq_true, beq_iff_eq] at h
      obtain ⟨rfl, h2⟩ := h
      simpa using ih ds h2

/-- `splitFirst` really splits: the input is the left part, the separator,
then the right part. -/
theorem splitFirst_eq_append :
    ∀ (sep l a b : List Char), splitFirst sep l = some (a, b) → l = a ++ sep ++ b := by
  intro sep l
  induction l with
  | nil => intro a b h; simp [splitFirst] at h
  | cons c cs ih =>
    intro a b h
    by_cases hl : leadsWith sep (c :: cs) = true
    · rw [splitFirst, if_pos hl] at h
      obtain ⟨rfl, rfl⟩ := Prod.mk.injEq .. ▸ Option.some.inj h
      simpa using eq_append_of_leadsWith sep (c :: cs) hl
    · rw [splitFirst, if_neg hl] at h
      cases hsf : splitFirst sep cs with
      | none => rw [hsf] at h; cases h
      | some ab =>
        rw [hsf] at h
        obtain ⟨rfl, rfl⟩ := Prod.mk.injEq .. ▸ Option.some.inj h
        have := ih ab.1 ab.2 (by rw [hsf])
        simp [this]

/-- `splitFirst` splits at the earliest occurrence: any other decomposition
around the separator has a left part at least as long. -/
theorem splitFirst_min :
    ∀ (sep l a b : List Char), splitFirst sep l = some (a, b) →
      ∀ a2 b2, l = a2 ++ sep ++ b2 → a.length ≤ a2.length := by
  intro sep l
  induction l with
  | nil => intro a b h; simp [splitFirst] at h
  | cons c cs ih =>
    intro a b h a2 b2 heq
    by_cases hl : leadsWith sep (c :: cs) = true
    · rw [splitFirst, if_pos hl] at h
      obtain ⟨rfl, rfl⟩ := Prod.mk.injEq .. ▸ Option.some.inj h
      simp
    · rw [splitFirst, if_neg hl] at h
      cases hsf : splitFirst sep cs with
      | none => rw [hsf] at h; cases h
      | some ab =>
        rw [hsf] at h
        obtain ⟨rfl, rfl⟩ := Prod.mk.injEq .. ▸ Option.some.inj h
        cases a2 with
        | nil =>
          exfalso
          apply hl
          have : c :: cs = sep ++ b2 := by simpa using heq
          rw [this]
          exact leadsWith_self_append sep b2
        | cons c2 cs2 =>
          have htl : cs = cs2 ++ sep ++ b2 := by
            have := List.cons.injEq .. ▸ heq
            simpa using this.2
          have := ih ab.1 ab.2 (by rw [hsf]) cs2 b2 htl
          simpa using Nat.succ_le_succ this

/-- Separators that do not occur in the label are skipped by the scan. -/
theorem findSep_append_none :
    ∀ (ss1 rest : List (List Char)) (lab : List Char),
      (∀ s0 ∈ ss1, splitFirst s0 lab = none) →
      findSep (ss1 ++ rest) lab = findSep rest lab := by
  intro ss1
  induction ss1 with
  | nil => intro rest lab _; rfl
  | cons s0 ss ih =>
    intro rest lab h
    have h0 : splitFirst s0 lab = none := h s0 (List.mem_cons_self ..)
    simp only [List.cons_append, findSep, h0]
    exact ih rest lab (fun s1 hs1 => h s1 (List.mem_cons_of_mem _ hs1))

/-- When no separator occurs and there are at least two words and the keyword
scan fails, the parser is the trailing-word heuristic with midpoint fallback. -/
theorem parse_eq_of_no_sep (input : List Char)
    (h1 : findSep separators input = none)
    (h2 : 2 ≤ (pyWords input).length)
    (h3 : kwScan (pyWords input) = none) :
    parse_project_input input =
      (match trailingSplit (pyWords input) with
       | some cp => cp
       | none =>
         (pyStrip (joinSp ((pyWords input).take ((pyWords input).length / 2))),
          pyStrip (joinSp ((pyWords input).drop ((pyWords input).length / 2))))) := by
  simp [parse_project_input, h1, h2, h3]

/-- Lookup after a Python dict assignment. -/
theorem dictGet?_dictInsert (d : List (String × StepRecord)) (k : String)
    (v : StepRecord) (k1 : String) :
    dictGet? (dictInsert d k v) k1 = if k1 = k then some v else dictGet? d k1 := by
  induction d with
  | nil =>
    by_cases h : k1 = k
    · simp [dictInsert, dictGet?, h]
    · simp [dictInsert, dictGet?, h, Ne.symm h]
  | cons e rest ih =>
    obtain ⟨ka, va⟩ := e
    by_cases ha : ka = k
    · subst ha
      by_cases h : k1 = ka
      · simp [dictInsert, dictGet?, h]
      · simp [dictInsert, dictGet?, h, Ne.symm h]
    · simp only [dictInsert, if_neg ha, dictGet?, ih]
      by_cases h1 : k1 = k
      · subst h1
        have hne : ¬ ka = k1 := ha
        simp [hne]
      · simp [h1]

/-- Keys present after a Python dict assignment. -/
theorem mem_keys_dictInsert (d : List (String × StepRecord)) (k : String)
    (v : StepRecord) (x : String) :
    x ∈ (dictInsert d k v).map Prod.fst ↔ x = k ∨ x ∈ d.map Prod.fst := by
  induction d with
  | nil => simp [dictInsert]
  | cons e rest ih =>
    obtain ⟨ka, va⟩ := e
    by_cases ha : ka = k
    · subst ha
      simp [dictInsert]
    · simp only [dictInsert, if_neg ha, List.map_cons, List.mem_cons, ih]
      tauto

/-- A Python dict assignment keeps the keys duplicate-free. -/
theorem nodup_keys_dictInsert (d : List (String × StepRecord)) (k : String)
    (v : StepRecord) (h : (d.map Prod.fst).Nodup) :
    ((dictInsert d k v).map Prod.fst).Nodup := by
  induction d with
  | nil => simp [dictInsert]
  | cons e rest ih =>
    obtain ⟨ka, va⟩ := e
    simp only [List.map_cons, List.nodup_cons] at h
    by_cases ha : ka = k
    · subst ha
      simpa [dictInsert] using h
    · simp only [dictInsert, if_neg ha, List.map_cons, List.nodup_cons]
      exact ⟨by
        rw [mem_keys_dictInsert]
        rintro (rfl | hmem)
        · exact ha rfl
        · exact h.1 hmem, ih h.2⟩

/-- An absent key has no stored entry. -/
theorem countKey_eq_zero (d : List (String × StepRecord)) (k : String)
    (h : k ∉ d.map Prod.fst) : countKey d k = 0 := by
  induction d with
  | nil => rfl
  | cons e rest ih =>
    obtain ⟨ka, va⟩ := e
    simp only [List.map_cons, List.mem_cons] at h
    push_neg at h
    have : (ka == k) = false := by simpa using fun hh => h.1 (Eq.symm hh)
    simp only [countKey, List.filter_cons, this]
    exact ih h.2

/-- After a Python dict assignment into a duplicate-free dict, the assigned
key has exactly one stored entry. -/
theorem countKey_dictInsert (d : List (String × StepRecord)) (k : String)
    (v : StepRecord) (h : (d.map Prod.fst).Nodup) :
    countKey (dictInsert d k v) k = 1 := by
  induction d with
  | nil => simp [dictInsert, countKey]
  | cons e rest ih =>
    obtain ⟨ka, va⟩ := e
    simp only [List.map_cons, List.nodup_cons] at h
    by_cases ha : ka = k
    · subst ha
      simp only [dictInsert, if_pos rfl, countKey, List.filter_cons, beq_self_eq_true,
        List.length_cons]
      have := countKey_eq_zero rest ka h.1
      simpa [countKey] using this
    · have : (ka == k) = false := by simpa using ha
      simp only [dictInsert, if_neg ha, countKey, List.filter_cons, this]
      exact ih h.2

/-- The eight step keys are pairwise distinct, so a step index below 8 is
determined by its key. -/
theorem stepKey?_inj : ∀ i < 8, ∀ j < 8, stepKey? i = stepKey? j → i = j := by decide

/-- Length of the step table. -/
theorem stepFns_length : stepFns.length = 8 := rfl

/-- Out-of-range indices have no step entry. -/
theorem stepFns_get?_eq_none (i : Nat) (h : ¬ i < 8) : stepFns.get? i = none := by
  apply List.get?_eq_none.mpr
  rw [stepFns_length]
  omega

/-- Unfolding of `runStep` on a valid index. -/
theorem runStep_eq (env : Env) (s : PipelineState) (i : Nat) (k : String)
    (f : Env → String → String → StepRecord) (hget : stepFns.get? i = some (k, f)) :
    runStep env s i =
      ⟨s.company, s.project, dictInsert s.records k (f env s.company s.project),
       s.notes, insert i s.completed⟩ := by
  unfold runStep
  rw [hget]

/-- How storedness changes under one `runStep` record insertion. -/
theorem storedB_after_insert (s : PipelineState) (k : String) (v : StepRecord)
    (cmp : Finset Nat) (nts : List (String × String)) (j : Nat) :
    storedB ⟨s.company, s.project, dictInsert s.records k v, nts, cmp⟩ j = true ↔
      (stepKey? j = some k ∨ storedB s j = true) := by
  unfold storedB
  cases hkj : stepKey? j with
  | none => simp
  | some kj =>
    simp only [dictGet?_dictInsert]
    by_cases hk : kj = k
    · subst hk; simp
    · simp [hk]

/- ### Claim theorems -/

/-- Claim C1: `search_web_info` tries the SerpAPI (Google) provider first and
Bing second and returns the first provider dict without an `error` key; when
the first provider errors and the second succeeds, the second provider's
success is the final outcome (the first provider's error is not surfaced);
when both error — including when no credential is configured — the outcome is
the single aggregated error dict carrying the original query unmodified. The
embedding is a total function, so no exception escapes. -/
theorem c1_search_web_info_fallback (env : Env) (q : String) :
    ((search_web_serp env q).error = none →
       search_web_info env q = search_web_serp env q) ∧
    ((search_web_serp env q).error ≠ none → (search_web_bing env q).error = none →
       search_web_info env q = search_web_bing env q) ∧
    ((search_web_serp env q).error ≠ none → (search_web_bing env q).error ≠ none →
       search_web_info env q =
         ⟨some "No working search API found. Please configure SERP_API_KEY or BING_API_KEY in Streamlit secrets.",
          none, some q⟩) := by
  refine ⟨fun h1 => ?_, fun h1 h2 => ?_, fun h1 h2 => ?_⟩
  · simp [search_web_info, h1]
  · simp [search_web_info, h1, h2]
  · simp [search_web_info, h1, h2]

/-- Witness for C1 at a concrete input: with no credential configured, both
providers error and the aggregated error carries the original query. -/
theorem c1_search_web_info_fallback_w :
    search_web_info env0 "gold exploration" =
      ⟨some "No working search API found. Please configure SERP_API_KEY or BING_API_KEY in Streamlit secrets.",
       none, some "gold exploration"⟩ :=
  (c1_search_web_info_fallback env0 "gold exploration").2.2 (by decide) (by decide)

/-- Claim C3 counterexample: with no credential configured (a "missing
credential" error), the provider-level error dict of each provider carries a
reason but no `query` key at all, so the original query "gold" is not
preserved in the provider's result, contrary to the claim. -/
theorem c3_provider_error_no_query_cex :
    (search_web_serp env0 "gold").error.isSome = true ∧
    (search_web_serp env0 "gold").query = none ∧
    (search_web_serp env0 "gold").query ≠ some "gold" ∧
    (search_web_bing env0 "gold").error.isSome = true ∧
    (search_web_bing env0 "gold").query = none ∧
    (search_web_bing env0 "gold").query ≠ some "gold" := by
  refine ⟨by decide, by decide, by decide, by decide, by decide, by decide⟩

/-- Claim C3 as amended: for each provider and every query, a missing
credential, a non-200 HTTP status, or a transport/timeout exception yields an
error dict with a human-readable reason, but with no `results` and no `query`
key — the original query is preserved only in success dicts (and in the
orchestrator's aggregated error), not in provider-level error dicts. -/
theorem c3_provider_error_shape (env : Env) (q : String) :
    (env.serp_api_key = none →
       search_web_serp env q = ⟨some "SERP API key not found in secrets", none, none⟩) ∧
    (∀ a e, env.serp_api_key = some a → env.serpHttp q = HttpResult.exc e →
       search_web_serp env q = ⟨some ("Search error: " ++ e), none, none⟩) ∧
    (∀ a st d, env.serp_api_key = some a → env.serpHttp q = HttpResult.success st d →
       st ≠ 200 →
       search_web_serp env q =
         ⟨some ("API request failed with status " ++ toString st), none, none⟩) ∧
    (env.bing_api_key = none →
       search_web_bing env q = ⟨some "Bing API key not found in secrets", none, none⟩) ∧
    (∀ a e, env.bing_api_key = some a → env.bingHttp q = HttpResult.exc e →
       search_web_bing env q = ⟨some ("Search error: " ++ e), none, none⟩) ∧
    (∀ a st d, env.bing_api_key = some a → env.bingHttp q = HttpResult.success st d →
       st ≠ 200 →
       search_web_bing env q =
         ⟨some ("API request failed with status " ++ toString st), none, none⟩) := by
  refine ⟨fun h => ?_, fun a e h1 h2 => ?_, fun a st d h1 h2 h3 => ?_,
          fun h => ?_, fun a e h1 h2 => ?_, fun a st d h1 h2 h3 => ?_⟩
  · simp [search_web_serp, h]
  · simp [search_web_serp, h1, h2]
  · simp [search_web_serp, h1, h2, h3]
  · simp [search_web_bing, h]
  · simp [search_web_bing, h1, h2]
  · simp [search_web_bing, h1, h2, h3]

/-- Witness for the amended C3 at a concrete input: the missing-credential
case of the SerpAPI provider. -/
theorem c3_provider_error_shape_w :
    search_web_serp env0 "gold" = ⟨some "SERP API key not found in secrets", none, none⟩ :=
  (c3_provider_error_shape env0 "gold").1 rfl

/-- Claim C10: on HTTP 200 with a body lacking the expected results container
(no `organic_results` key for SerpAPI; no `webPages` or no `value` for Bing),
the provider returns a success dict with an empty results list, and the
orchestrator returns that empty success as the final outcome — for the
SerpAPI case this holds for every Bing behaviour, so no fallback occurs. -/
theorem c10_empty_container_is_success (env : Env) (q : String) :
    (∀ a d, env.serp_api_key = some a → env.serpHttp q = HttpResult.success 200 d →
       d.organic_results = none →
       search_web_info env q = ⟨none, some [], some q⟩) ∧
    (∀ a d, (search_web_serp env q).error ≠ none → env.bing_api_key = some a →
       env.bingHttp q = HttpResult.success 200 d →
       (d.webPages = none ∨ d.webPages = some ⟨none⟩) →
       search_web_info env q = ⟨none, some [], some q⟩) := by
  constructor
  · intro a d h1 h2 h3
    have hserp : search_web_serp env q = ⟨none, some [], some q⟩ := by
      simp [search_web_serp, h1, h2, h3]
    simp [search_web_info, hserp]
  · intro a d hfail h1 h2 h3
    have hbing : search_web_bing env q = ⟨none, some [], some q⟩ := by
      rcases h3 with h3 | h3 <;> simp [search_web_bing, h1, h2, h3]
    simp [search_web_info, hfail, hbing]

/-- Witness for C10 at a concrete input: SerpAPI configured, HTTP 200 with a
body lacking `organic_results`, Bing unusable — the outcome is an empty
success carrying the query, and Bing is never consulted. -/
theorem c10_empty_container_is_success_w :
    search_web_info envSerpEmpty "gold" = ⟨none, some [], some "gold"⟩ :=
  (c10_empty_container_is_success envSerpEmpty "gold").1 "key" ⟨none⟩ rfl rfl rfl

/-- Claim C2: when the separator list, in its fixed order, is some prefix
`ss1` none of whose tokens occurs in the label followed by a token `sep` that
does occur, `parse_project_input` splits the label at the first occurrence of
`sep` into exactly two parts, strips whitespace from both, and returns them;
the left part is minimal among all decompositions around `sep`. -/
theorem c2_separator_split (label sep a b : List Char) (ss1 ss2 : List (List Char))
    (hsep : separators = ss1 ++ sep :: ss2)
    (hmiss : ∀ s0 ∈ ss1, hasSub s0 label = false)
    (hsplit : splitFirst sep label = some (a, b)) :
    parse_project_input label = (pyStrip a, pyStrip b) ∧
    label = a ++ sep ++ b ∧
    (∀ a2 b2, label = a2 ++ sep ++ b2 → a.length ≤ a2.length) := by
  have hnone : ∀ s0 ∈ ss1, splitFirst s0 label = none := by
    intro s0 hs0
    have h := hmiss s0 hs0
    cases hsf : splitFirst s0 label with
    | none => rfl
    | some x => rw [hasSub, hsf] at h; simp at h
  have hfind : findSep separators label = some (pyStrip a, pyStrip b) := by
    rw [hsep, findSep_append_none ss1 (sep :: ss2) label hnone]
    simp [findSep, hsplit]
  refine ⟨?_, splitFirst_eq_append sep label a b hsplit,
          splitFirst_min sep label a b hsplit⟩
  simp [parse_project_input, hfind]

/-- Witness for C2 at the spec's concrete input:
parse("Saturn Metals - Apollo Hill") = ("Saturn Metals", "Apollo Hill"). -/
theorem c2_separator_split_w :
    parse_project_input (("Saturn Metals - Apollo Hill").data) =
      ((("Saturn Metals").data), (("Apollo Hill").data)) := by
  have h := (c2_separator_split (("Saturn Metals - Apollo Hill").data) ((" - ").data)
    (("Saturn Metals").data) (("Apollo Hill").data) []
    [(" – ").data, (" — ").data, (" | ").data, (" / ").data, (" \\ ").data]
    rfl (by simp) (by decide)).1
  exact h.trans (by decide)

/-- Claim C8 counterexample: the label " Cadia " tokenizes to a single word,
but the parser returns the stripped pair ("Cadia", "Cadia"), not the claimed
(label, label) pair. -/
theorem c8_single_word_cex :
    parse_project_input ((" Cadia ").data) = ((("Cadia").data), (("Cadia").data)) ∧
    parse_project_input ((" Cadia ").data) ≠ (((" Cadia ").data), ((" Cadia ").data)) := by
  refine ⟨by decide, by decide⟩

/-- Claim C8 as amended: for every label in which no separator token occurs
and whose whitespace tokenization yields fewer than two words, the parser
returns the whitespace-stripped label as both components (so both fields are
identical, and equal to the label itself exactly when the label carries no
leading or trailing whitespace). -/
theorem c8_single_word (label : List Char)
    (h1 : findSep separators label = none)
    (h2 : (pyWords label).length < 2) :
    parse_project_input label = (pyStrip label, pyStrip label) ∧
    (parse_project_input label).1 = (parse_project_input label).2 := by
  have hlt : ¬ 2 ≤ (pyWords label).length := by omega
  constructor
  · simp [parse_project_input, h1, hlt]
  · simp [parse_project_input, h1, hlt]

/-- Witness for the amended C8 at the concrete input " Cadia ". -/
theorem c8_single_word_w :
    parse_project_input ((" Cadia ").data) = ((("Cadia").data), (("Cadia").data)) := by
  have h := (c8_single_word ((" Cadia ").data) (by decide) (by decide)).1
  exact h.trans (by decide)

/-- Claim C5 counterexample: on "Acme Gold Hillside" — no separator, three
words, no hit in the step-3 keyword scan — the parser splits off the last
word "Hillside" as the project, although its lowering "hillside" is not a
member of the set {hill, creek, mine, pit, deposit, prospect}; the source
tests substring containment, not membership, contrary to the claim's
"exactly when the last word is a member". -/
theorem c5_trailing_membership_cex :
    findSep separators (("Acme Gold Hillside").data) = none ∧
    2 ≤ (pyWords (("Acme Gold Hillside").data)).length ∧
    kwScan (pyWords (("Acme Gold Hillside").data)) = none ∧
    parse_project_input (("Acme Gold Hillside").data) =
      ((("Acme Gold").data), (("Hillside").data)) ∧
    toLowerW (("Hillside").data) ∉ potential_project_words := by
  refine ⟨by decide, by decide, by decide, by decide, by decide⟩

/-- Claim C5 as amended: for a label with no separator, at least two words and
no hit in the step-3 keyword scan, the parser splits off the last word as
project exactly when the lowercased last word CONTAINS a member of
{hill, creek, mine, pit, deposit, prospect} as a substring; otherwise — and
only when there are at least three words — it splits off the last two words
exactly when the lowercased space-join of the last two words contains such a
member as a substring; in all remaining cases it falls to the midpoint
split. -/
theorem c5_trailing_substring (label lw : List Char)
    (h1 : findSep separators label = none)
    (h2 : 2 ≤ (pyWords label).length)
    (h3 : kwScan (pyWords label) = none)
    (hlast : (pyWords label).getLast? = some lw) :
    (anyKwIn (toLowerW lw) = true →
       parse_project_input label =
         (pyStrip (joinSp (pyWords label).dropLast), pyStrip lw)) ∧
    (anyKwIn (toLowerW lw) = false → 3 ≤ (pyWords label).length →
       anyKwIn (toLowerW (joinSp ((pyWords label).drop ((pyWords label).length - 2)))) = true →
       parse_project_input label =
         (pyStrip (joinSp ((pyWords label).take ((pyWords label).length - 2))),
          pyStrip (joinSp ((pyWords label).drop ((pyWords label).length - 2))))) ∧
    (anyKwIn (toLowerW lw) = false →
       ((pyWords label).length < 3 ∨
        anyKwIn (toLowerW (joinSp ((pyWords label).drop ((pyWords label).length - 2)))) = false) →
       parse_project_input label =
         (pyStrip (joinSp ((pyWords label).take ((pyWords label).length / 2))),
          pyStrip (joinSp ((pyWords label).drop ((pyWords label).length / 2))))) := by
  rw [parse_eq_of_no_sep label h1 h2 h3]
  refine ⟨fun ha => ?_, fun ha h3w hb => ?_, fun ha hc => ?_⟩
  · simp [trailingSplit, hlast, h2, ha]
  · simp [trailingSplit, hlast, h2, ha, h3w, hb]
  · rcases hc with hc | hc
    · have : ¬ 3 ≤ (pyWords label).length := by omega
      simp [trailingSplit, hlast, h2, ha, this]
    · by_cases h3w : 3 ≤ (pyWords label).length
      · simp [trailingSplit, hlast, h2, ha, h3w, hc]
      · simp [trailingSplit, hlast, h2, ha, h3w]

/-- Witness for the amended C5 at the concrete input "Acme Gold Hillside":
the lowered last word contains "hill", so the last word is split off. -/
theorem c5_trailing_substring_w :
    parse_project_input (("Acme Gold Hillside").data) =
      ((("Acme Gold").data), (("Hillside").data)) := by
  have h := (c5_trailing_substring (("Acme Gold Hillside").data) (("Hillside").data)
    (by decide) (by decide) (by decide) (by decide)).1 (by decide)
  exact h.trans (by decide)

/-- Claim C9: for a label with no separator, at least two words, no hit in the
keyword scan and no trailing-word split, the parser splits the word list at
index floor(length/2): first half (space-joined, stripped) is the company,
second half the project. -/
theorem c9_midpoint_split (label : List Char)
    (h1 : findSep separators label = none)
    (h2 : 2 ≤ (pyWords label).length)
    (h3 : kwScan (pyWords label) = none)
    (h4 : trailingSplit (pyWords label) = none) :
    parse_project_input label =
      (pyStrip (joinSp ((pyWords label).take ((pyWords label).length / 2))),
       pyStrip (joinSp ((pyWords label).drop ((pyWords label).length / 2)))) := by
  rw [parse_eq_of_no_sep label h1 h2 h3, h4]

/-- Witness for C9 at the spec's concrete input:
parse("BHP Olympic Dam") = ("BHP", "Olympic Dam") (3 words, midpoint 1). -/
theorem c9_midpoint_split_w :
    parse_project_input (("BHP Olympic Dam").data) =
      ((("BHP").data), (("Olympic Dam").data)) := by
  have h := c9_midpoint_split (("BHP Olympic Dam").data)
    (by decide) (by decide) (by decide) (by decide)
  exact h.trans (by decide)

/-- Claim C4: running a step preserves the completed-on-attempt invariant —
`completed` is exactly the set of step indices that have a stored record —
and after running any valid step, that step's index is in `completed` and its
record is stored, for every environment, hence regardless of whether the
search outcome stored in the record is a success or an error. -/
theorem c4_completed_on_attempt (env : Env) (s : PipelineState) (i : Nat)
    (hs : Inv s) :
    Inv (runStep env s i) ∧
    (∀ kf, stepFns.get? i = some kf →
       i ∈ (runStep env s i).completed ∧ storedB (runStep env s i) i = true) := by
  cases hget : stepFns.get? i with
  | none =>
    constructor
    · have : runStep env s i = s := by unfold runStep; rw [hget]
      rw [this]; exact hs
    · intro kf h; exact Option.noConfusion h
  | some kf =>
    obtain ⟨k, f⟩ := kf
    have hi : i < 8 := by
      by_contra hni
      rw [stepFns_get?_eq_none i hni] at hget
      exact Option.noConfusion hget
    have hrun := runStep_eq env s i k f hget
    have hkey : stepKey? i = some k := by unfold stepKey?; rw [hget]; rfl
    have hstored : ∀ j, storedB (runStep env s i) j = true ↔
        (stepKey? j = some k ∨ storedB s j = true) := by
      intro j
      rw [hrun]
      exact storedB_after_insert s k (f env s.company s.project) (insert i s.completed)
        s.notes j
    have hcmp : (runStep env s i).completed = insert i s.completed := by rw [hrun]
    constructor
    · constructor
      · intro j hj
        rw [hcmp] at hj
        rcases Finset.mem_insert.mp hj with rfl | hj2
        · exact hi
        · exact hs.1 j hj2
      · intro j hj8
        rw [hcmp]
        constructor
        · intro hmem
          rcases Finset.mem_insert.mp hmem with rfl | hj2
          · exact (hstored j).mpr (Or.inl hkey)
          · exact (hstored j).mpr (Or.inr ((hs.2 j hj8).mp hj2))
        · intro hst
          rcases (hstored j).mp hst with hkj | hold
          · have : j = i := stepKey?_inj j hj8 i hi (hkj.trans hkey.symm)
            rw [this]
            exact Finset.mem_insert_self i s.completed
          · exact Finset.mem_insert_of_mem ((hs.2 j hj8).mpr hold)
    · intro kf2 _
      refine ⟨?_, (hstored i).mpr (Or.inl hkey)⟩
      rw [hcmp]
      exact Finset.mem_insert_self i s.completed

/-- Witness for C4 at a concrete input: the fresh session state satisfies the
invariant, and after running step 0 under the credential-free environment
(whose outcome is an error), the invariant still holds, step 0 is completed
and its record is stored. -/
theorem c4_completed_on_attempt_w :
    Inv (runStep env0 initState 0) ∧
    (0 ∈ (runStep env0 initState 0).completed ∧
     storedB (runStep env0 initState 0) 0 = true) := by
  have h := c4_completed_on_attempt env0 initState 0 (by decide)
  exact ⟨h.1, h.2 ("location", get_location_info) rfl⟩

/-- Claim C6: running the same step twice (under any two environments) leaves
exactly one stored record for that step's key — the second run overwrites the
first, no history is kept — and the completed set contains the step index
exactly once. -/
theorem c6_rerun_overwrites (env1 env2 : Env) (s : PipelineState) (i : Nat)
    (k : String) (f : Env → String → String → StepRecord)
    (hget : stepFns.get? i = some (k, f))
    (hnd : (s.records.map Prod.fst).Nodup) :
    countKey (runStep env2 (runStep env1 s i) i).records k = 1 ∧
    dictGet? (runStep env2 (runStep env1 s i) i).records k =
      some (f env2 s.company s.project) ∧
    ((runStep env2 (runStep env1 s i) i).completed.filter (fun j => j = i)).card = 1 := by
  have hrun1 := runStep_eq env1 s i k f hget
  have hrun2 : runStep env2 (runStep env1 s i) i =
      ⟨s.company, s.project,
       dictInsert (dictInsert s.records k (f env1 s.company s.project)) k
         (f env2 s.company s.project),
       s.notes, insert i (insert i s.completed)⟩ := by
    rw [hrun1, runStep_eq env2 _ i k f hget]
  rw [hrun2]
  refine ⟨?_, ?_, ?_⟩
  · exact countKey_dictInsert _ k _ (nodup_keys_dictInsert s.records k _ hnd)
  · rw [dictGet?_dictInsert]
    simp
  · rw [Finset.insert_idem, Finset.filter_eq', if_pos (Finset.mem_insert_self i s.completed)]
    exact Finset.card_singleton i

/-- Witness for C6 at a concrete input: step 0 run twice from the fresh state
under the credential-free environment. -/
theorem c6_rerun_overwrites_w :
    countKey (runStep env0 (runStep env0 initState 0) 0).records "location" = 1 ∧
    dictGet? (runStep env0 (runStep env0 initState 0) 0).records "location" =
      some (get_location_info env0 "" "") ∧
    ((runStep env0 (runStep env0 initState 0) 0).completed.filter (fun j => j = 0)).card = 1 :=
  c6_rerun_overwrites env0 env0 initState 0 "location" get_location_info rfl (by simp [initState])

/-- Claim C7: the clear button wipes the session store (step records, notes,
completed set all empty), and after the forced rerun of `main` re-stores the
identity from the unchanged input widgets, the stored company and project are
the same as before the clear. The hypotheses say the widget values match the
state's stored identity, which holds on any state produced by a rerun of
`main`. -/
theorem c7_clear_preserves_identity (s : PipelineState) (c p : String)
    (hc : s.company = c) (hp : s.project = p) :
    (clearButton c p s).records = [] ∧
    (clearButton c p s).notes = [] ∧
    (clearButton c p s).completed = ∅ ∧
    (clearButton c p s).company = s.company ∧
    (clearButton c p s).project = s.project := by
  subst hc hp
  exact ⟨rfl, rfl, rfl, rfl, rfl⟩

/-- Witness for C7 at a concrete state with one completed step. -/
theorem c7_clear_preserves_identity_w :
    (clearButton "BHP" "Olympic Dam" sampleState).records = [] ∧
    (clearButton "BHP" "Olympic Dam" sampleState).notes = [] ∧
    (clearButton "BHP" "Olympic Dam" sampleState).completed = ∅ ∧
    (clearButton "BHP" "Olympic Dam" sampleState).company = sampleState.company ∧
    (clearButton "BHP" "Olympic Dam" sampleState).project = sampleState.project :=
  c7_clear_preserves_identity sampleState "BHP" "Olympic Dam" rfl rfl

end RP
